/-
Verification of the TrackJob hackathon board application (src/app.py).

The Flask routes and SQLAlchemy models are shallowly embedded:
the database session becomes an explicit `Store` record holding the
`posts`, `likes` and `comments` tables as lists in insertion order
(SQLite assigns ascending autoincrement ids, so insertion order and
primary-key order coincide), and each route body becomes a function
from the request parameters and the current store to either an
`AppError` (the flash-and-redirect failure paths) or the updated store.
`datetime.utcnow()` is modelled by an explicit `now : Nat` argument,
monotone across successive calls.  `hashlib.sha256` is embedded as a
full SHA-256 implementation over `Nat` byte lists.
-/
import Mathlib

set_option maxRecDepth 100000

/-- Python's `str.strip()`: remove leading and trailing whitespace.
(Defined over the character list so that it evaluates inside the kernel;
`String.trim` is extensionally the same but is defined by well-founded
recursion over byte positions and does not reduce.) -/
def strip (s : String) : String :=
  ⟨((s.data.dropWhile Char.isWhitespace).reverse.dropWhile Char.isWhitespace).reverse⟩

/-- Python's `str.upper()`: map every character to upper case. -/
def upper (s : String) : String := ⟨s.data.map Char.toUpper⟩

/-- Reduce modulo 2^32. -/
def m32 (x : Nat) : Nat := x % 4294967296

/-- Rotate a 32-bit word right by `n`. -/
def rotr32 (x n : Nat) : Nat := ((x >>> n) ||| (x <<< (32 - n))) % 4294967296

def bsig0 (x : Nat) : Nat := rotr32 x 2 ^^^ rotr32 x 13 ^^^ rotr32 x 22

def bsig1 (x : Nat) : Nat := rotr32 x 6 ^^^ rotr32 x 11 ^^^ rotr32 x 25

def ssig0 (x : Nat) : Nat := rotr32 x 7 ^^^ rotr32 x 18 ^^^ (x >>> 3)

def ssig1 (x : Nat) : Nat := rotr32 x 17 ^^^ rotr32 x 19 ^^^ (x >>> 10)

/-- The SHA-256 round constants (FIPS 180-4, written in decimal). -/
def sha256K : List Nat :=
  [1116352408, 1899447441, 3049323471, 3921009573, 961987163,
   1508970993, 2453635748, 2870763221, 3624381080, 310598401,
   607225278, 1426881987, 1925078388, 2162078206, 2614888103,
   3248222580, 3835390401, 4022224774, 264347078, 604807628,
   770255983, 1249150122, 1555081692, 1996064986, 2554220882,
   2821834349, 2952996808, 3210313671, 3336571891, 3584528711,
   113926993, 338241895, 666307205, 773529912, 1294757372,
   1396182291, 1695183700, 1986661051, 2177026350, 2456956037,
   2730485921, 2820302411, 3259730800, 3345764771, 3516065817,
   3600352804, 4094571909, 275423344, 430227734, 506948616,
   659060556, 883997877, 958139571, 1322822218, 1537002063,
   1747873779, 1955562222, 2024104815, 2227730452, 2361852424,
   2428436474, 2756734187, 3204031479, 3329325298]

/-- The SHA-256 initial hash state (FIPS 180-4, written in decimal). -/
def sha256H0 : List Nat :=
  [1779033703, 3144134277, 1013904242, 2773480762,
   1359893119, 2600822924, 528734635, 1541459225]

/-- UTF-8 encoding of one character (Python's `str.encode()`). -/
def utf8Bytes (c : Char) : List Nat :=
  let n := c.toNat
  if n < 128 then [n]
  else if n < 2048 then [192 ||| (n >>> 6), 128 ||| (n &&& 63)]
  else if n < 65536 then
    [224 ||| (n >>> 12), 128 ||| ((n >>> 6) &&& 63), 128 ||| (n &&& 63)]
  else
    [240 ||| (n >>> 18), 128 ||| ((n >>> 12) &&& 63),
     128 ||| ((n >>> 6) &&& 63), 128 ||| (n &&& 63)]

/-- UTF-8 byte sequence of a string. -/
def strBytes (s : String) : List Nat := (s.data.map utf8Bytes).flatten

/-- SHA-256 message padding: `0x80`, zeros up to 56 mod 64, then the
64-bit big-endian bit length. -/
def sha256Pad (msg : List Nat) : List Nat :=
  msg ++ [128] ++ List.replicate ((119 - msg.length % 64) % 64) 0 ++
    (List.range 8).map (fun i => ((8 * msg.length) >>> (8 * (7 - i))) % 256)

/-- The `i`-th big-endian 32-bit word of a 64-byte block. -/
def wordAt (block : List Nat) (i : Nat) : Nat :=
  (block.getD (4 * i) 0) <<< 24 ||| (block.getD (4 * i + 1) 0) <<< 16 |||
    (block.getD (4 * i + 2) 0) <<< 8 ||| block.getD (4 * i + 3) 0

/-- Extend the 16 block words to the 64-entry message schedule. -/
def sha256Schedule (w0 : List Nat) : List Nat :=
  (List.range 48).foldl (fun w _ =>
    let n := w.length
    w ++ [m32 (ssig1 (w.getD (n - 2) 0) + w.getD (n - 7) 0 +
               ssig0 (w.getD (n - 15) 0) + w.getD (n - 16) 0)]) w0

/-- One SHA-256 compression step over a 64-byte block. -/
def sha256Compress (H : List Nat) (block : List Nat) : List Nat :=
  let w := sha256Schedule ((List.range 16).map (wordAt block))
  let st := (List.range 64).foldl (fun st t =>
    match st with
    | (a, b, c, d, e, f, g, h) =>
      let ch := (e &&& f) ^^^ ((4294967295 ^^^ e) &&& g)
      let temp1 := m32 (h + bsig1 e + ch + sha256K.getD t 0 + w.getD t 0)
      let maj := (a &&& b) ^^^ (a &&& c) ^^^ (b &&& c)
      let temp2 := m32 (bsig0 a + maj)
      (m32 (temp1 + temp2), a, b, c, m32 (d + temp1), e, f, g))
    (H.getD 0 0, H.getD 1 0, H.getD 2 0, H.getD 3 0,
     H.getD 4 0, H.getD 5 0, H.getD 6 0, H.getD 7 0)
  [m32 (H.getD 0 0 + st.1), m32 (H.getD 1 0 + st.2.1),
   m32 (H.getD 2 0 + st.2.2.1), m32 (H.getD 3 0 + st.2.2.2.1),
   m32 (H.getD 4 0 + st.2.2.2.2.1), m32 (H.getD 5 0 + st.2.2.2.2.2.1),
   m32 (H.getD 6 0 + st.2.2.2.2.2.2.1), m32 (H.getD 7 0 + st.2.2.2.2.2.2.2)]

/-- The SHA-256 digest (32 bytes) of a byte sequence. -/
def sha256Bytes (msg : List Nat) : List Nat :=
  let padded := sha256Pad msg
  let Hf := (List.range (padded.length / 64)).foldl
      (fun H i => sha256Compress H ((padded.drop (64 * i)).take 64)) sha256H0
  (Hf.map (fun w =>
    [(w >>> 24) % 256, (w >>> 16) % 256, (w >>> 8) % 256, w % 256])).flatten

/-- A nibble as a lowercase hexadecimal character. -/
def hexChar (n : Nat) : Char :=
  if n < 10 then Char.ofNat (48 + n) else Char.ofNat (87 + n)

/-- `hashlib.sha256(raw.encode()).hexdigest()`: the digest of a string as
64 lowercase hexadecimal characters. -/
def sha256hexdigest (s : String) : String :=
  ⟨((sha256Bytes (strBytes s)).map
      (fun b => [hexChar (b / 16), hexChar (b % 16)])).flatten⟩

/-- The fixed channel set `ALLOWED_CHANNELS` of app.py (line 41). -/
def ALLOWED_CHANNELS : List String := ["general", "job", "class", "circle"]

/-- A row of the `posts` table (model `Post`, app.py lines 73-85). -/
structure Post where
  id : Nat
  content : String
  timestamp : Nat
  user_id : Nat
  channel : String
  is_deleted : Bool
  deleted_at : Option Nat
deriving DecidableEq

/-- A row of the `likes` table (model `Like`, app.py lines 100-111).
The surrogate primary key is omitted: every operation identifies a
like row only through its `(user_id, post_id)` pair. -/
structure Like where
  user_id : Nat
  post_id : Nat
deriving DecidableEq

/-- A row of the `comments` table (model `Comment`, app.py lines 115-135).
The spare `session_id` column is a random token never read back and is
omitted. -/
structure Comment where
  id : Nat
  content : String
  timestamp : Nat
  user_id : Nat
  post_id : Nat
deriving DecidableEq

/-- `Post.get_anonymous_id` (app.py lines 87-92): first 8 hex characters,
uppercased, of the SHA-256 digest of `post-{id}-{secret_key}`. -/
def Post.get_anonymous_id (p : Post) (secret_key : String) : String :=
  upper ((sha256hexdigest ("post-" ++ toString p.id ++ "-" ++ secret_key)).take 8)

/-- `Comment.get_anonymous_id` (app.py lines 137-142): first 8 hex
characters, uppercased, of the SHA-256 digest of
`comment-{post_id}-{id}-{secret_key}`. -/
def Comment.get_anonymous_id (c : Comment) (secret_key : String) : String :=
  upper ((sha256hexdigest
    ("comment-" ++ toString c.post_id ++ "-" ++ toString c.id ++ "-" ++
      secret_key)).take 8)

/-- The persistent store: the three content tables plus the autoincrement
counters SQLite would keep for the two tables whose ids are read. -/
structure Store where
  posts : List Post
  likes : List Like
  comments : List Comment
  nextPostId : Nat
  nextCommentId : Nat
deriving DecidableEq

/-- The store of a freshly created database (`db.create_all()` with dummy
data generation off): all tables empty, autoincrement counters at 1. -/
def emptyStore : Store :=
  { posts := [], likes := [], comments := [], nextPostId := 1, nextCommentId := 1 }

/-- The error taxonomy of the failure paths: `ValidationError` for the
flash-and-redirect input rejections, `NotFoundError` for
`get_or_404`, `AuthorizationError` for the author-only check. -/
inductive AppError where
  | ValidationError : AppError
  | NotFoundError : AppError
  | AuthorizationError : AppError
deriving DecidableEq

/-- `Post.query.get(post_id)`: look a post up by primary key.  Soft-deleted
posts are still found: the query does not filter on `is_deleted`. -/
def getPost (s : Store) (post_id : Nat) : Option Post :=
  s.posts.find? (fun p => p.id == post_id)

/-- Comparison used by `order_by(Post.timestamp.desc())`: `a` may come
before `b` when `a`'s timestamp is at least `b`'s. -/
def tsDesc (a b : Post) : Bool :=
  Nat.ble b.timestamp a.timestamp

/-- The filtering stage of the `timeline` route (app.py lines 224-235):
`filter_by(is_deleted=False)`, and additionally `channel=selected_channel`
when the query parameter is a member of `ALLOWED_CHANNELS`; an absent or
invalid parameter selects all channels. -/
def visiblePosts (s : Store) (selected_channel : Option String) : List Post :=
  match selected_channel with
  | some ch =>
    if ch ∈ ALLOWED_CHANNELS then
      s.posts.filter (fun p => p.channel == ch && p.is_deleted == false)
    else
      s.posts.filter (fun p => p.is_deleted == false)
  | none => s.posts.filter (fun p => p.is_deleted == false)

/-- The `timeline` route (app.py lines 220-239): the visible posts ordered
by creation timestamp descending.  The SQL `ORDER BY` over the
primary-key-ordered table is modelled by a stable merge sort over the
insertion-ordered list. -/
def timeline (s : Store) (selected_channel : Option String) : List Post :=
  (visiblePosts s selected_channel).mergeSort tsDesc

/-- The POST branch of the `post` route (app.py lines 245-263): strip the
content, reject when empty or longer than 140 characters, silently fall
back to channel `"general"` when the channel is not allowed, then insert
the new post. -/
def post (s : Store) (current_user : Nat) (content0 channel0 : String)
    (now : Nat) : Except AppError (Store × Post) :=
  let content := strip content0
  if content.isEmpty then
    .error .ValidationError
  else if content.length > 140 then
    .error .ValidationError
  else
    let channel := if channel0 ∈ ALLOWED_CHANNELS then channel0 else "general"
    let new_post : Post :=
      { id := s.nextPostId, content := content, timestamp := now,
        user_id := current_user, channel := channel,
        is_deleted := false, deleted_at := none }
    .ok ({ s with posts := s.posts ++ [new_post],
                  nextPostId := s.nextPostId + 1 }, new_post)

/-- The `delete_post` route (app.py lines 288-301): 404 when the id is
absent, author-only check, then soft delete: set `is_deleted` and stamp
`deleted_at` with the current time. -/
def delete_post (s : Store) (current_user post_id now : Nat) :
    Except AppError Store :=
  match getPost s post_id with
  | none => .error .NotFoundError
  | some p =>
    if p.user_id ≠ current_user then
      .error .AuthorizationError
    else
      .ok { s with posts := s.posts.map (fun q =>
              if q.id == post_id then
                { q with is_deleted := true, deleted_at := some now }
              else q) }

/-- The like-toggling step of the `like` route on the `likes` table:
delete the first existing `(user, post)` row if there is one, otherwise
append a fresh row. -/
def toggleLikes (current_user post_id : Nat) (ls : List Like) : List Like :=
  match ls.find? (fun l => l.user_id == current_user && l.post_id == post_id) with
  | some existing => ls.erase existing
  | none => ls ++ [{ user_id := current_user, post_id := post_id }]

/-- The `like` route (app.py lines 355-366): 404 when the post id is absent
(the lookup ignores `is_deleted`), then toggle the `(user, post)` like
row. -/
def like (s : Store) (current_user post_id : Nat) : Except AppError Store :=
  match getPost s post_id with
  | none => .error .NotFoundError
  | some p => .ok { s with likes := toggleLikes current_user p.id s.likes }

/-- The `comment` route (app.py lines 370-392): 404 when the post id is
absent (soft-deleted posts are found and accepted), reject empty stripped
content, then insert the comment. -/
def comment (s : Store) (current_user post_id : Nat) (content0 : String)
    (now : Nat) : Except AppError (Store × Comment) :=
  match getPost s post_id with
  | none => .error .NotFoundError
  | some p =>
    let content := strip content0
    if content.isEmpty then
      .error .ValidationError
    else
      let new_comment : Comment :=
        { id := s.nextCommentId, content := content, timestamp := now,
          user_id := current_user, post_id := p.id }
      .ok ({ s with comments := s.comments ++ [new_comment],
                    nextCommentId := s.nextCommentId + 1 }, new_comment)

/-- States reachable from the fresh database by the four core
operations. -/
inductive Reachable : Store → Prop where
  | empty : Reachable emptyStore
  | step_post : ∀ (s : Store) (a : Nat) (c ch : String) (now : Nat)
      (s' : Store) (p : Post), Reachable s →
      post s a c ch now = .ok (s', p) → Reachable s'
  | step_delete : ∀ (s : Store) (u pid now : Nat) (s' : Store), Reachable s →
      delete_post s u pid now = .ok s' → Reachable s'
  | step_like : ∀ (s : Store) (u pid : Nat) (s' : Store), Reachable s →
      like s u pid = .ok s' → Reachable s'
  | step_comment : ∀ (s : Store) (u pid : Nat) (c : String) (now : Nat)
      (s' : Store) (cm : Comment), Reachable s →
      comment s u pid c now = .ok (s', cm) → Reachable s'

/-- At most one like row per (user, post) pair. -/
def LikeUnique (s : Store) : Prop :=
  ∀ u pid : Nat, s.likes.count (⟨u, pid⟩ : Like) ≤ 1

/-- A post by user 1 in channel "general". -/
def alicePost : Post :=
  { id := 1, content := "first", timestamp := 5, user_id := 1,
    channel := "general", is_deleted := false, deleted_at := none }

/-- A later post by user 2 in channel "job". -/
def bobPost : Post :=
  { id := 2, content := "second", timestamp := 9, user_id := 2,
    channel := "job", is_deleted := false, deleted_at := none }

/-- A store holding `alicePost` and `bobPost`. -/
def sampleStore : Store :=
  { posts := [alicePost, bobPost], likes := [], comments := [],
    nextPostId := 3, nextCommentId := 1 }

/-- A soft-deleted post by user 1. -/
def deletedPost : Post :=
  { id := 1, content := "hi", timestamp := 0, user_id := 1,
    channel := "general", is_deleted := true, deleted_at := some 3 }

/-- A store whose only post is soft-deleted. -/
def deletedPostStore : Store :=
  { posts := [deletedPost], likes := [], comments := [],
    nextPostId := 2, nextCommentId := 1 }

/-- `sampleStore` after user 1 soft-deletes post 1 at time 10. -/
def sampleStoreDel : Store :=
  { posts := [{ alicePost with is_deleted := true, deleted_at := some 10 },
              bobPost],
    likes := [], comments := [], nextPostId := 3, nextCommentId := 1 }

/-- `emptyStore` after user 1 posts "hello" to "general" at time 0. -/
def helloStore : Store :=
  { posts := [{ id := 1, content := "hello", timestamp := 0, user_id := 1,
                channel := "general", is_deleted := false, deleted_at := none }],
    likes := [], comments := [], nextPostId := 2, nextCommentId := 1 }

/-- `helloStore` after user 2 toggles a like on post 1. -/
def helloLikedStore : Store :=
  { helloStore with likes := [{ user_id := 2, post_id := 1 }] }

theorem length_eq_zero_iff (s : String) : s.length = 0 ↔ s = "" := by
  constructor
  · intro h
    cases s with
    | mk data =>
      simp [String.length] at h
      simp [h]
  · intro h
    simp [h]

theorem isEmpty_eq_false_iff (s : String) : s.isEmpty = false ↔ 1 ≤ s.length := by
  constructor
  · intro h
    by_contra hlt
    have h0 : s.length = 0 := by omega
    have he : s = "" := (length_eq_zero_iff s).mp h0
    rw [he] at h
    simp [String.isEmpty] at h
  · intro h
    cases hb : s.isEmpty with
    | false => rfl
    | true =>
      have he : s = "" := (String.isEmpty_iff s).mp hb
      rw [he] at h
      simp [length_eq_zero_iff] at h

theorem string_length_data (s : String) : s.length = s.data.length := by
  cases s
  rfl

theorem getPost_id (s : Store) (pid : Nat) (p : Post)
    (h : getPost s pid = some p) : p.id = pid := by
  have := List.find?_some h
  simpa using this

theorem find?_delete_map (ps : List Post) (pid now : Nat) (p : Post)
    (h : ps.find? (fun q => q.id == pid) = some p) :
    (ps.map (fun q => if q.id == pid then
        { q with is_deleted := true, deleted_at := some now } else q)).find?
      (fun q => q.id == pid) =
      some { p with is_deleted := true, deleted_at := some now } := by
  induction ps with
  | nil => simp at h
  | cons a as ih =>
    cases ha : (a.id == pid) with
    | true =>
      simp only [List.find?, ha] at h
      injection h with h
      subst h
      simp [List.find?, ha]
    | false =>
      simp only [List.find?, ha] at h
      simp only [List.map_cons, if_neg (by simp [ha] : ¬ (a.id == pid) = true)]
      simp only [List.find?, ha]
      exact ih h

theorem getPost_delete (s : Store) (pid now : Nat) (p : Post)
    (hf : getPost s pid = some p) :
    getPost { s with posts := s.posts.map (fun q => if q.id == pid then
        { q with is_deleted := true, deleted_at := some now } else q) } pid =
      some { p with is_deleted := true, deleted_at := some now } := by
  unfold getPost at hf ⊢
  exact find?_delete_map s.posts pid now p hf

theorem delete_post_eq_found (s : Store) (u pid now : Nat) (p : Post)
    (hf : getPost s pid = some p) :
    delete_post s u pid now =
      if p.user_id ≠ u then .error .AuthorizationError
      else .ok { s with posts := s.posts.map (fun q => if q.id == pid then
        { q with is_deleted := true, deleted_at := some now } else q) } := by
  unfold delete_post
  rw [hf]

theorem comment_eq_found (s : Store) (u pid : Nat) (content0 : String)
    (now : Nat) (p : Post) (hf : getPost s pid = some p) :
    comment s u pid content0 now =
      (let content := strip content0
      if content.isEmpty then .error .ValidationError
      else
        let new_comment : Comment :=
          { id := s.nextCommentId, content := content, timestamp := now,
            user_id := u, post_id := p.id }
        .ok ({ s with comments := s.comments ++ [new_comment],
                      nextCommentId := s.nextCommentId + 1 }, new_comment)) := by
  unfold comment
  rw [hf]

theorem like_eq_found (s : Store) (u pid : Nat) (p : Post)
    (hf : getPost s pid = some p) :
    like s u pid = .ok { s with likes := toggleLikes u p.id s.likes } := by
  unfold like
  rw [hf]

theorem like_ok (s : Store) (u pid : Nat) (p : Post)
    (hf : getPost s pid = some p) :
    like s u pid = .ok { s with likes := toggleLikes u pid s.likes } := by
  rw [like_eq_found s u pid p hf, getPost_id s pid p hf]

theorem find?_like_some (ls : List Like) (u pid : Nat) (e : Like)
    (h : ls.find? (fun l => l.user_id == u && l.post_id == pid) = some e) :
    e = ⟨u, pid⟩ := by
  have := List.find?_some h
  simp at this
  cases e
  simp_all

theorem find?_like_none_iff (ls : List Like) (u pid : Nat) :
    ls.find? (fun l => l.user_id == u && l.post_id == pid) = none ↔
      (⟨u, pid⟩ : Like) ∉ ls := by
  rw [List.find?_eq_none]
  constructor
  · intro h hmem
    exact h _ hmem (by simp)
  · intro h x hx hpred
    simp at hpred
    cases x
    simp_all

theorem toggleLikes_count_self (ls : List Like) (u pid : Nat) :
    (toggleLikes u pid ls).count (⟨u, pid⟩ : Like) =
      if ls.count (⟨u, pid⟩ : Like) = 0 then 1
      else ls.count (⟨u, pid⟩ : Like) - 1 := by
  unfold toggleLikes
  cases hf : ls.find? (fun l => l.user_id == u && l.post_id == pid) with
  | some e =>
    have he := find?_like_some ls u pid e hf
    subst he
    rw [List.count_erase_self]
    have hmem : (⟨u, pid⟩ : Like) ∈ ls := List.mem_of_find?_eq_some hf
    have h0 : ls.count (⟨u, pid⟩ : Like) ≠ 0 := by
      rw [Ne, List.count_eq_zero]
      simp [hmem]
    simp [h0]
  | none =>
    have hnm : (⟨u, pid⟩ : Like) ∉ ls := (find?_like_none_iff ls u pid).mp hf
    have h0 : ls.count (⟨u, pid⟩ : Like) = 0 := List.count_eq_zero.mpr hnm
    simp [List.count_append, h0]

theorem toggleLikes_count_other (ls : List Like) (u pid : Nat) (q : Like)
    (hq : q ≠ ⟨u, pid⟩) :
    (toggleLikes u pid ls).count q = ls.count q := by
  unfold toggleLikes
  cases hf : ls.find? (fun l => l.user_id == u && l.post_id == pid) with
  | some e =>
    have he := find?_like_some ls u pid e hf
    subst he
    exact List.count_erase_of_ne hq ls
  | none =>
    rw [List.count_append]
    have : List.count q [(⟨u, pid⟩ : Like)] = 0 := by
      simp [List.count_singleton]
      exact fun h => hq h.symm
    omega

theorem toggleLikes_twice_of_absent (ls : List Like) (u pid : Nat)
    (h : (⟨u, pid⟩ : Like) ∉ ls) :
    toggleLikes u pid (toggleLikes u pid ls) = ls := by
  have h1 : toggleLikes u pid ls = ls ++ [(⟨u, pid⟩ : Like)] := by
    unfold toggleLikes
    rw [(find?_like_none_iff ls u pid).mpr h]
  rw [h1]
  unfold toggleLikes
  cases hf : (ls ++ [(⟨u, pid⟩ : Like)]).find?
      (fun l => l.user_id == u && l.post_id == pid) with
  | none =>
    rw [find?_like_none_iff] at hf
    simp at hf
  | some e =>
    have he := find?_like_some _ u pid e hf
    subst he
    show (ls ++ [(⟨u, pid⟩ : Like)]).erase (⟨u, pid⟩ : Like) = ls
    rw [List.erase_append_right _ h]
    simp

theorem post_ok_likes (s : Store) (a : Nat) (c ch : String) (now : Nat)
    (s' : Store) (p : Post) (h : post s a c ch now = .ok (s', p)) :
    s'.likes = s.likes := by
  unfold post at h
  by_cases h1 : (strip c).isEmpty = true
  · simp only [h1, if_true] at h
    exact absurd h (by simp)
  · simp only [Bool.not_eq_true] at h1
    simp only [h1, Bool.false_eq_true, if_false] at h
    by_cases h2 : (strip c).length > 140
    · simp only [if_pos h2] at h
      exact absurd h (by simp)
    · simp only [if_neg h2, Except.ok.injEq, Prod.mk.injEq] at h
      rw [← h.1]

theorem delete_post_ok_likes (s : Store) (u pid now : Nat) (s' : Store)
    (h : delete_post s u pid now = .ok s') : s'.likes = s.likes := by
  unfold delete_post at h
  split at h
  · exact absurd h (by simp)
  · split at h
    · exact absurd h (by simp)
    · simp only [Except.ok.injEq] at h
      rw [← h]

theorem comment_ok_likes (s : Store) (u pid : Nat) (c : String) (now : Nat)
    (s' : Store) (cm : Comment) (h : comment s u pid c now = .ok (s', cm)) :
    s'.likes = s.likes := by
  unfold comment at h
  split at h
  · exact absurd h (by simp)
  · by_cases h1 : (strip c).isEmpty = true
    · simp only [h1, if_true] at h
      exact absurd h (by simp)
    · simp only [Bool.not_eq_true] at h1
      simp only [h1, Bool.false_eq_true, if_false, Except.ok.injEq,
        Prod.mk.injEq] at h
      rw [← h.1]

theorem like_ok_likes (s : Store) (u pid : Nat) (s' : Store)
    (h : like s u pid = .ok s') :
    ∃ pid', s'.likes = toggleLikes u pid' s.likes := by
  unfold like at h
  split at h
  · exact absurd h (by simp)
  · simp only [Except.ok.injEq] at h
    exact ⟨_, by rw [← h]⟩

theorem toggleLikes_preserves_unique (ls : List Like) (u pid : Nat)
    (h : ∀ u' pid' : Nat, ls.count (⟨u', pid'⟩ : Like) ≤ 1) :
    ∀ u' pid' : Nat, (toggleLikes u pid ls).count (⟨u', pid'⟩ : Like) ≤ 1 := by
  intro u' pid'
  by_cases hq : (⟨u', pid'⟩ : Like) = (⟨u, pid⟩ : Like)
  · rw [hq, toggleLikes_count_self]
    split
    · exact Nat.le_refl 1
    · have := h u pid
      omega
  · rw [toggleLikes_count_other _ u pid _ hq]
    exact h u' pid'

theorem tsDesc_trans : ∀ a b c : Post, tsDesc a b → tsDesc b c → tsDesc a c := by
  intro a b c hab hbc
  simp only [tsDesc, Nat.ble_eq] at *
  omega

theorem tsDesc_total : ∀ a b : Post, tsDesc a b || tsDesc b a := by
  intro a b
  simp only [tsDesc, Bool.or_eq_true, Nat.ble_eq]
  omega

theorem sha256Compress_length (H block : List Nat) :
    (sha256Compress H block).length = 8 := rfl

theorem foldl_compress_length (l : List Nat) (chunk : Nat → List Nat) :
    ∀ H : List Nat, H.length = 8 →
      (l.foldl (fun H i => sha256Compress H (chunk i)) H).length = 8 := by
  induction l with
  | nil =>
    intro H hH
    simpa using hH
  | cons a as ih =>
    intro H hH
    rw [List.foldl_cons]
    exact ih _ (sha256Compress_length H (chunk a))

theorem flatten_map_length {α : Type} (f : α → List Nat) (k : Nat)
    (hf : ∀ x, (f x).length = k) :
    ∀ l : List α, ((l.map f).flatten).length = k * l.length := by
  intro l
  induction l with
  | nil => simp
  | cons a as ih =>
    simp only [List.map_cons, List.flatten_cons, List.length_append, ih, hf,
      List.length_cons]
    ring

theorem flatten_map_char_length {α : Type} (f : α → List Char) (k : Nat)
    (hf : ∀ x, (f x).length = k) :
    ∀ l : List α, ((l.map f).flatten).length = k * l.length := by
  intro l
  induction l with
  | nil => simp
  | cons a as ih =>
    simp only [List.map_cons, List.flatten_cons, List.length_append, ih, hf,
      List.length_cons]
    ring

theorem sha256Bytes_length (msg : List Nat) : (sha256Bytes msg).length = 32 := by
  unfold sha256Bytes
  rw [flatten_map_length
    (fun w => [(w >>> 24) % 256, (w >>> 16) % 256, (w >>> 8) % 256, w % 256]) 4
    (fun w => rfl)]
  rw [foldl_compress_length _ _ sha256H0 rfl]

theorem sha256hexdigest_length (s : String) : (sha256hexdigest s).length = 64 := by
  rw [string_length_data]
  show (((sha256Bytes (strBytes s)).map
      (fun b => [hexChar (b / 16), hexChar (b % 16)])).flatten).length = 64
  rw [flatten_map_char_length (fun b => [hexChar (b / 16), hexChar (b % 16)]) 2
    (fun b => rfl), sha256Bytes_length]

theorem upper_length (s : String) : (upper s).length = s.length := by
  rw [string_length_data, string_length_data]
  show (s.data.map Char.toUpper).length = s.data.length
  exact List.length_map _ _

theorem token_length (s : String) :
    (upper ((sha256hexdigest s).take 8)).length = 8 := by
  rw [upper_length, String.take_eq, string_length_data]
  show ((sha256hexdigest s).data.take 8).length = 8
  rw [List.length_take]
  have h64 := sha256hexdigest_length s
  rw [string_length_data] at h64
  omega

theorem intercalate3 (a b c : String) :
    String.intercalate "-" [a, b, c] = a ++ "-" ++ b ++ "-" ++ c := by
  simp [String.intercalate, String.intercalate.go]

theorem intercalate4 (a b c d : String) :
    String.intercalate "-" [a, b, c, d] = a ++ "-" ++ b ++ "-" ++ c ++ "-" ++ d := by
  simp [String.intercalate, String.intercalate.go]

/-- C1: `timeline` returns exactly the posts whose soft-delete flag is
false — restricted to the filter channel when the filter is a member of
`ALLOWED_CHANNELS`, spanning all channels when absent or invalid (never
an error) — ordered by creation timestamp descending, equal timestamps
kept in insertion order (stable sort). -/
theorem timeline_spec (s : Store) (cf : Option String) :
    (timeline s cf).Perm (visiblePosts s cf) ∧
    (∀ p : Post, p ∈ timeline s cf ↔ p ∈ s.posts ∧ p.is_deleted = false ∧
      ∀ ch : String, cf = some ch → ch ∈ ALLOWED_CHANNELS → p.channel = ch) ∧
    (timeline s cf).Pairwise (fun a b => b.timestamp ≤ a.timestamp) ∧
    (∀ a b : Post, a.timestamp = b.timestamp →
      [a, b].Sublist (visiblePosts s cf) → [a, b].Sublist (timeline s cf)) := by
  refine ⟨List.mergeSort_perm _ _, ?_, ?_, ?_⟩
  · intro p
    rw [timeline, List.mem_mergeSort]
    cases cf with
    | none => simp [visiblePosts, List.mem_filter]
    | some ch =>
      by_cases hch : ch ∈ ALLOWED_CHANNELS
      · simp only [visiblePosts, if_pos hch, List.mem_filter, Bool.and_eq_true,
          beq_iff_eq, Option.some.injEq]
        constructor
        · rintro ⟨hmem, hc, hd⟩
          exact ⟨hmem, hd, fun ch' hch' _ => hch' ▸ hc⟩
        · rintro ⟨hmem, hd, hc⟩
          exact ⟨hmem, hc ch rfl hch, hd⟩
      · simp only [visiblePosts, if_neg hch, List.mem_filter, beq_iff_eq,
          Option.some.injEq]
        constructor
        · rintro ⟨hmem, hd⟩
          exact ⟨hmem, hd, fun ch' hch' hch'' => absurd (hch' ▸ hch'') hch⟩
        · rintro ⟨hmem, hd, _⟩
          exact ⟨hmem, hd⟩
  · have hp := List.sorted_mergeSort tsDesc_trans tsDesc_total (visiblePosts s cf)
    exact hp.imp (fun hab => by simpa [tsDesc, Nat.ble_eq] using hab)
  · intro a b hts hsub
    exact List.pair_sublist_mergeSort tsDesc_trans tsDesc_total
      (by simp [tsDesc, Nat.ble_eq, hts]) hsub

/-- C1 witness: on the two-post sample store, post 1 is a member of the
"general" timeline and the unfiltered timeline is sorted. -/
theorem timeline_spec_witness :
    alicePost ∈ timeline sampleStore (some "general") ∧
    (timeline sampleStore none).Pairwise (fun a b => b.timestamp ≤ a.timestamp) :=
  have h := timeline_spec sampleStore (some "general")
  have h2 := timeline_spec sampleStore none
  ⟨(h.2.1 alicePost).mpr
    ⟨by simp [sampleStore], rfl,
     fun ch hch _ => (Option.some.inj hch) ▸ rfl⟩,
   h2.2.2.1⟩

/-- C2: `get_anonymous_id` equals the first 8 hexadecimal characters,
uppercased, of the SHA-256 digest of the kind tag, the id parts and the
server secret joined with "-"; the token has 8 characters and is a pure
deterministic function of the kind, the ids and the secret. -/
theorem anonymous_id_spec (p q : Post) (c d : Comment) (secret : String) :
    p.get_anonymous_id secret =
      upper ((sha256hexdigest
        (String.intercalate "-" ["post", toString p.id, secret])).take 8) ∧
    c.get_anonymous_id secret =
      upper ((sha256hexdigest
        (String.intercalate "-"
          ["comment", toString c.post_id, toString c.id, secret])).take 8) ∧
    (p.get_anonymous_id secret).length = 8 ∧
    (c.get_anonymous_id secret).length = 8 ∧
    (p.id = q.id → p.get_anonymous_id secret = q.get_anonymous_id secret) ∧
    (c.post_id = d.post_id → c.id = d.id →
      c.get_anonymous_id secret = d.get_anonymous_id secret) := by
  refine ⟨?_, ?_, token_length _, token_length _, ?_, ?_⟩
  · rw [intercalate3]
    show upper ((sha256hexdigest
      ("post-" ++ toString p.id ++ "-" ++ secret)).take 8) = _
    congr 3
  · rw [intercalate4]
    show upper ((sha256hexdigest
      ("comment-" ++ toString c.post_id ++ "-" ++ toString c.id ++ "-" ++
        secret)).take 8) = _
    congr 3
  · intro h
    unfold Post.get_anonymous_id
    rw [h]
  · intro h1 h2
    unfold Comment.get_anonymous_id
    rw [h1, h2]

/-- C2 witness: two posts sharing id 1 get the same token under the
default secret, and that token is the concrete value "4345F342"
(the uppercased 8-character prefix of
sha256("post-1-default-secret-key")). -/
theorem anonymous_id_spec_witness :
    Post.get_anonymous_id
        { id := 1, content := "a", timestamp := 0, user_id := 1,
          channel := "general", is_deleted := false, deleted_at := none }
        "default-secret-key" =
      Post.get_anonymous_id
        { id := 1, content := "b", timestamp := 7, user_id := 2,
          channel := "job", is_deleted := true, deleted_at := some 3 }
        "default-secret-key" ∧
    Post.get_anonymous_id
        { id := 1, content := "a", timestamp := 0, user_id := 1,
          channel := "general", is_deleted := false, deleted_at := none }
        "default-secret-key" = "4345F342" :=
  have h := anonymous_id_spec
    { id := 1, content := "a", timestamp := 0, user_id := 1,
      channel := "general", is_deleted := false, deleted_at := none }
    { id := 1, content := "b", timestamp := 7, user_id := 2,
      channel := "job", is_deleted := true, deleted_at := some 3 }
    { id := 1, content := "x", timestamp := 0, user_id := 1, post_id := 1 }
    { id := 1, content := "x", timestamp := 0, user_id := 1, post_id := 1 }
    "default-secret-key"
  ⟨h.2.2.2.2.1 rfl, by decide⟩

/-- C3: for a valid channel, `post` succeeds exactly when the stripped
content has length 1 to 140, appending the new post to the store; it
fails with `ValidationError` (persisting nothing) when the stripped
content is empty or longer than 140 characters. -/
theorem post_validates_content (s : Store) (author : Nat) (content ch : String)
    (now : Nat) (hch : ch ∈ ALLOWED_CHANNELS) :
    (1 ≤ (strip content).length ∧ (strip content).length ≤ 140 →
      post s author content ch now =
        .ok
          ({ s with
              posts := s.posts ++
                [{ id := s.nextPostId, content := strip content,
                   timestamp := now, user_id := author, channel := ch,
                   is_deleted := false, deleted_at := none }],
              nextPostId := s.nextPostId + 1 },
            { id := s.nextPostId, content := strip content, timestamp := now,
              user_id := author, channel := ch, is_deleted := false,
              deleted_at := none })) ∧
    ((strip content).length = 0 ∨ 140 < (strip content).length →
      post s author content ch now = .error .ValidationError) := by
  constructor
  · rintro ⟨h1, h2⟩
    have hne : (strip content).isEmpty = false := (isEmpty_eq_false_iff _).mpr h1
    simp [post, hne, Nat.not_lt.mpr h2, hch]
  · intro h
    rcases h with h | h
    · have he : strip content = "" := (length_eq_zero_iff _).mp h
      simp [post, he, String.isEmpty]
    · have hne : (strip content).isEmpty = false := by
        rw [isEmpty_eq_false_iff]
        omega
      simp [post, hne, h]

/-- C3 witness: whitespace-only content is rejected with
`ValidationError` on the fresh store. -/
theorem post_validates_content_witness :
    post emptyStore 1 "   " "general" 0 = .error .ValidationError :=
  (post_validates_content emptyStore 1 "   " "general" 0 (by decide)).2
    (Or.inl (by decide))

/-- C4 counterexample: with an invalid channel the claim says `post` must
fail with `ValidationError`, but on the fresh store it succeeds and
persists the post under channel "general". -/
theorem post_invalid_channel_succeeds :
    post emptyStore 1 "hello" "badchannel" 0 =
      .ok
        ({ posts := [{ id := 1, content := "hello", timestamp := 0,
                       user_id := 1, channel := "general",
                       is_deleted := false, deleted_at := none }],
           likes := [], comments := [], nextPostId := 2, nextCommentId := 1 },
          { id := 1, content := "hello", timestamp := 0, user_id := 1,
            channel := "general", is_deleted := false, deleted_at := none }) :=
  rfl

/-- C4 amended: with a channel outside `ALLOWED_CHANNELS` and valid
content, `post` does not fail: it silently coerces the channel to
"general" and persists the post there. -/
theorem post_coerces_invalid_channel (s : Store) (author : Nat)
    (content ch : String) (now : Nat) (hch : ch ∉ ALLOWED_CHANNELS)
    (h1 : 1 ≤ (strip content).length) (h2 : (strip content).length ≤ 140) :
    post s author content ch now =
      .ok
        ({ s with
            posts := s.posts ++
              [{ id := s.nextPostId, content := strip content,
                 timestamp := now, user_id := author, channel := "general",
                 is_deleted := false, deleted_at := none }],
            nextPostId := s.nextPostId + 1 },
          { id := s.nextPostId, content := strip content, timestamp := now,
            user_id := author, channel := "general", is_deleted := false,
            deleted_at := none }) := by
  have hne : (strip content).isEmpty = false := (isEmpty_eq_false_iff _).mpr h1
  simp [post, hne, Nat.not_lt.mpr h2, hch]

/-- C4 amended witness: posting "hi" to the unknown channel "news"
persists it under "general". -/
theorem post_coerces_invalid_channel_witness :
    post emptyStore 1 "hi" "news" 3 =
      .ok
        ({ emptyStore with
            posts := emptyStore.posts ++
              [{ id := emptyStore.nextPostId, content := strip "hi",
                 timestamp := 3, user_id := 1, channel := "general",
                 is_deleted := false, deleted_at := none }],
            nextPostId := emptyStore.nextPostId + 1 },
          { id := emptyStore.nextPostId, content := strip "hi", timestamp := 3,
            user_id := 1, channel := "general", is_deleted := false,
            deleted_at := none }) :=
  post_coerces_invalid_channel emptyStore 1 "hi" "news" 3 (by decide)
    (by decide) (by decide)

/-- C5: `like` toggling is its own inverse on the like relation: for an
existing post (under the at-most-one-row invariant) two toggles restore
every row count, restore the row list exactly when starting from ABSENT,
and an odd number of toggles from ABSENT leaves exactly one row for the
pair. -/
theorem like_toggle_involution (s : Store) (u pid : Nat) (p : Post)
    (hf : getPost s pid = some p)
    (hinv : s.likes.count (⟨u, pid⟩ : Like) ≤ 1) :
    like s u pid = .ok { s with likes := toggleLikes u pid s.likes } ∧
    like { s with likes := toggleLikes u pid s.likes } u pid =
      .ok { s with likes := toggleLikes u pid (toggleLikes u pid s.likes) } ∧
    (∀ q : Like, (toggleLikes u pid (toggleLikes u pid s.likes)).count q =
      s.likes.count q) ∧
    (s.likes.count (⟨u, pid⟩ : Like) = 0 →
      toggleLikes u pid (toggleLikes u pid s.likes) = s.likes) ∧
    (∀ n : Nat, s.likes.count (⟨u, pid⟩ : Like) = 0 →
      ((toggleLikes u pid)^[2 * n + 1] s.likes).count (⟨u, pid⟩ : Like) = 1) := by
  refine ⟨like_ok s u pid p hf, like_ok _ u pid p hf, ?_, ?_, ?_⟩
  · intro q
    by_cases hq : q = (⟨u, pid⟩ : Like)
    · subst hq
      rw [toggleLikes_count_self, toggleLikes_count_self]
      rcases Nat.le_one_iff_eq_zero_or_eq_one.mp hinv with h0 | h1
      · simp [h0]
      · simp [h1]
    · rw [toggleLikes_count_other _ u pid q hq,
        toggleLikes_count_other _ u pid q hq]
  · intro h0
    exact toggleLikes_twice_of_absent s.likes u pid (List.count_eq_zero.mp h0)
  · intro n h0
    induction n with
    | zero =>
      simp only [Nat.mul_zero, Nat.zero_add, Function.iterate_one]
      rw [toggleLikes_count_self]
      simp [h0]
    | succ m ih =>
      have harr : 2 * (m + 1) + 1 = (2 * m + 1) + 2 := by omega
      rw [harr, Function.iterate_add_apply]
      have hnm : (⟨u, pid⟩ : Like) ∉ s.likes := List.count_eq_zero.mp h0
      have h2 : (toggleLikes u pid)^[2] s.likes = s.likes := by
        simp only [Function.iterate_succ_apply, Function.iterate_one]
        exact toggleLikes_twice_of_absent s.likes u pid hnm
      rw [h2]
      exact ih

/-- C5 witness: on the one-post store, the first toggle by user 2
succeeds, three toggles leave one row, and two toggles restore the empty
like table. -/
theorem like_toggle_involution_witness :
    like helloStore 2 1 =
      .ok { helloStore with likes := toggleLikes 2 1 helloStore.likes } ∧
    ((toggleLikes 2 1)^[2 * 1 + 1] helloStore.likes).count (⟨2, 1⟩ : Like) = 1 ∧
    toggleLikes 2 1 (toggleLikes 2 1 helloStore.likes) = helloStore.likes :=
  have h := like_toggle_involution helloStore 2 1
    { id := 1, content := "hello", timestamp := 0, user_id := 1,
      channel := "general", is_deleted := false, deleted_at := none }
    rfl (by decide)
  ⟨h.1, h.2.2.2.2 1 rfl, h.2.2.2.1 rfl⟩

/-- C6: in every store reachable from the fresh database by the core
operations there is at most one like row per (user, post) pair; the
invariant rests on `toggleLikes` deleting an existing row and otherwise
appending exactly one. -/
theorem reachable_like_unique (s : Store) (h : Reachable s) : LikeUnique s := by
  induction h with
  | empty =>
    intro u pid
    simp [emptyStore]
  | step_post s a c ch now s' p _ hok ih =>
    intro u pid
    rw [post_ok_likes s a c ch now s' p hok]
    exact ih u pid
  | step_delete s u0 pid0 now s' _ hok ih =>
    intro u pid
    rw [delete_post_ok_likes s u0 pid0 now s' hok]
    exact ih u pid
  | step_like s u0 pid0 s' _ hok ih =>
    intro u pid
    obtain ⟨pid', hl⟩ := like_ok_likes s u0 pid0 s' hok
    rw [hl]
    exact toggleLikes_preserves_unique s.likes u0 pid' ih u pid
  | step_comment s u0 pid0 c now s' cm _ hok ih =>
    intro u pid
    rw [comment_ok_likes s u0 pid0 c now s' cm hok]
    exact ih u pid

/-- C6 witness: the store reached by posting "hello" and then toggling a
like on it satisfies the uniqueness invariant. -/
theorem reachable_like_unique_witness : LikeUnique helloLikedStore :=
  reachable_like_unique helloLikedStore
    (Reachable.step_like helloStore 2 1 helloLikedStore
      (Reachable.step_post emptyStore 1 "hello" "general" 0 helloStore
        { id := 1, content := "hello", timestamp := 0, user_id := 1,
          channel := "general", is_deleted := false, deleted_at := none }
        Reachable.empty rfl)
      rfl)

/-- C7: `delete_post` fails with `NotFoundError` when no post has the
requested id and with `AuthorizationError` when the requester is not the
author; in either case nothing is updated and a not-yet-deleted post
stays visible in the timeline. -/
theorem delete_post_failures (s : Store) (u pid now : Nat) :
    (getPost s pid = none → delete_post s u pid now = .error .NotFoundError) ∧
    (∀ p, getPost s pid = some p → p.user_id ≠ u →
      delete_post s u pid now = .error .AuthorizationError ∧
      (p.is_deleted = false → p ∈ timeline s none)) := by
  constructor
  · intro h
    simp [delete_post, h]
  · intro p hp hu
    constructor
    · simp [delete_post, hp, hu]
    · intro hdel
      have hmem : p ∈ s.posts := List.mem_of_find?_eq_some hp
      simp [timeline, visiblePosts, List.mem_mergeSort, List.mem_filter,
        hmem, hdel]

/-- C7 witness: user 1 cannot delete post 2 (authored by user 2), post 99
does not exist, and post 2 stays in the timeline. -/
theorem delete_post_failures_witness :
    delete_post sampleStore 1 99 0 = .error .NotFoundError ∧
    delete_post sampleStore 1 2 0 = .error .AuthorizationError ∧
    bobPost ∈ timeline sampleStore none :=
  have h99 := (delete_post_failures sampleStore 1 99 0).1 rfl
  have h := (delete_post_failures sampleStore 1 2 0).2 bobPost rfl (by decide)
  ⟨h99, h.1, h.2 rfl⟩

/-- C8: `delete_post` is idempotent for the author: after a successful
delete at time `t1`, a second call at any `t2 ≥ t1` succeeds again,
the flag stays true, and the deletion timestamp is re-set to `t2`,
never regressing below the recorded `t1`. -/
theorem delete_post_idempotent (s : Store) (u pid t1 t2 : Nat) (s1 : Store)
    (hle : t1 ≤ t2) (h1 : delete_post s u pid t1 = .ok s1) :
    delete_post s1 u pid t2 =
      .ok { s1 with posts := s1.posts.map (fun q => if q.id == pid then
        { q with is_deleted := true, deleted_at := some t2 } else q) } ∧
    getPost s1 pid = (getPost s pid).map
      (fun p => { p with is_deleted := true, deleted_at := some t1 }) ∧
    getPost { s1 with posts := s1.posts.map (fun q => if q.id == pid then
        { q with is_deleted := true, deleted_at := some t2 } else q) } pid =
      (getPost s pid).map
        (fun p => { p with is_deleted := true, deleted_at := some t2 }) ∧
    t1 ≤ t2 := by
  cases hf : getPost s pid with
  | none => simp [delete_post, hf] at h1
  | some p =>
    rw [delete_post_eq_found s u pid t1 p hf] at h1
    by_cases hu : p.user_id = u
    · rw [if_neg (by simp [hu])] at h1
      injection h1 with h1
      have hf1 : getPost s1 pid =
          some { p with is_deleted := true, deleted_at := some t1 } := by
        rw [← h1]
        exact getPost_delete s pid t1 p hf
      refine ⟨?_, ?_, ?_, hle⟩
      · rw [delete_post_eq_found s1 u pid t2 _ hf1, if_neg (by simp [hu])]
      · rw [hf1]
        rfl
      · have hf2 := getPost_delete s1 pid t2 _ hf1
        rw [hf2]
        rfl
    · rw [if_pos hu] at h1
      exact absurd h1 (by simp)

/-- C8 witness: after user 1 deletes post 1 at time 10, deleting again at
time 20 succeeds and the recorded deletion time moves from 10 to 20. -/
theorem delete_post_idempotent_witness :
    delete_post sampleStoreDel 1 1 20 =
      .ok { sampleStoreDel with posts := sampleStoreDel.posts.map (fun q =>
        if q.id == 1 then { q with is_deleted := true, deleted_at := some 20 }
        else q) } ∧
    getPost sampleStoreDel 1 = (getPost sampleStore 1).map
      (fun p => { p with is_deleted := true, deleted_at := some 10 }) :=
  have h := delete_post_idempotent sampleStore 1 1 10 20 sampleStoreDel
    (by decide) rfl
  ⟨h.1, h.2.1⟩

/-- C9 counterexample: the claim says commenting on a soft-deleted post
fails with `NotFoundError`, but on the store whose only post is
soft-deleted the comment is accepted and persisted. -/
theorem comment_on_deleted_succeeds :
    comment deletedPostStore 2 1 "Nice" 10 =
      .ok
        ({ posts := [deletedPost], likes := [],
           comments := [{ id := 1, content := "Nice", timestamp := 10,
                          user_id := 2, post_id := 1 }],
           nextPostId := 2, nextCommentId := 2 },
          { id := 1, content := "Nice", timestamp := 10,
            user_id := 2, post_id := 1 }) :=
  rfl

/-- C9 amended: `comment` fails with `NotFoundError` exactly when no post
has the requested id (persisting nothing); an existing post accepts a
non-empty comment even when its soft-delete flag is set, because the
lookup never checks the flag. -/
theorem comment_notfound_iff_absent (s : Store) (u pid : Nat)
    (content : String) (now : Nat) :
    (comment s u pid content now = .error .NotFoundError ↔
      getPost s pid = none) ∧
    (∀ p, getPost s pid = some p → 1 ≤ (strip content).length →
      comment s u pid content now =
        .ok
          ({ s with
              comments := s.comments ++
                [{ id := s.nextCommentId, content := strip content,
                   timestamp := now, user_id := u, post_id := pid }],
              nextCommentId := s.nextCommentId + 1 },
            { id := s.nextCommentId, content := strip content,
              timestamp := now, user_id := u, post_id := pid })) := by
  constructor
  · constructor
    · intro h
      cases hf : getPost s pid with
      | none => rfl
      | some p =>
        rw [comment_eq_found s u pid content now p hf] at h
        by_cases he : (strip content).isEmpty
        · simp only [he, if_pos] at h
          exact absurd h (by simp)
        · simp only [if_neg he] at h
          exact absurd h (by simp)
    · intro h
      simp [comment, h]
  · intro p hf h1
    have hne : (strip content).isEmpty = false := (isEmpty_eq_false_iff _).mpr h1
    have hid : p.id = pid := getPost_id s pid p hf
    rw [comment_eq_found s u pid content now p hf]
    simp [hne, hid]

/-- C9 amended witness: the soft-deleted post 1 accepts the comment
"Nice", and a missing post id 99 yields `NotFoundError`. -/
theorem comment_notfound_iff_absent_witness :
    comment deletedPostStore 2 1 "Nice" 10 =
      .ok
        ({ deletedPostStore with
            comments := deletedPostStore.comments ++
              [{ id := deletedPostStore.nextCommentId, content := strip "Nice",
                 timestamp := 10, user_id := 2, post_id := 1 }],
            nextCommentId := deletedPostStore.nextCommentId + 1 },
          { id := deletedPostStore.nextCommentId, content := strip "Nice",
            timestamp := 10, user_id := 2, post_id := 1 }) ∧
    comment deletedPostStore 2 99 "Nice" 10 = .error .NotFoundError :=
  have h := comment_notfound_iff_absent deletedPostStore 2 1 "Nice" 10
  have h99 := comment_notfound_iff_absent deletedPostStore 2 99 "Nice" 10
  ⟨h.2 deletedPost rfl (by decide), h99.1.mpr rfl⟩

/-- C10: soft deletion does not gate liking — `like` on an existing post
whose soft-delete flag is true succeeds and performs exactly the same
like-row transition as on any existing post, because the operation
checks only that the post id exists. -/
theorem like_ignores_soft_delete (s : Store) (u pid : Nat) (p : Post)
    (hf : getPost s pid = some p) (_hdel : p.is_deleted = true) :
    like s u pid = .ok { s with likes := toggleLikes u pid s.likes } :=
  like_ok s u pid p hf

/-- C10 witness: user 2 can like the soft-deleted post 1. -/
theorem like_ignores_soft_delete_witness :
    like deletedPostStore 2 1 =
      .ok { deletedPostStore with
            likes := toggleLikes 2 1 deletedPostStore.likes } :=
  like_ignores_soft_delete deletedPostStore 2 1 deletedPost rfl rfl
